import Mathlib

/-!
# Verification of the tide/temperature merge pipeline

Shallow embedding of `src/streamlit_app.py` (function `process_and_merge_data`).
Tables are lists of rows; a cell is a string, a number, or a null (pandas NaN).
Datetime parsing (`pd.to_datetime(..., errors='coerce')`) is an external
library routine; the embedding abstracts it as a function
`parse : String → Option Int` mapping the concatenated "date time" string to
seconds (or `none` for an unparseable string, i.e. `NaT`).

Streamlit calls are modelled as follows: `st.error` + `st.stop` become
`Except.error` (the invocation aborts with a message, producing no result
mapping); `st.write` / `st.warning` / `st.info` are diagnostics that do not
affect the returned value and are not part of the return type, except that
the duplicate count reported by the `st.warning` at line 85 is exposed by the
definition `duplicatesRemoved` so that it can be reasoned about.
-/

/-- A spreadsheet cell as pandas sees it after `read_excel`: a string, a
numeric value, or a missing value (NaN). -/
inductive Cell where
  | str : String → Cell
  | num : Int → Cell
  | null : Cell
deriving DecidableEq, Repr

/-- `str(cell)`: the Python string form used when composing timestamps
(`df['Data'].astype(str) + ' ' + df['Hora']`). The exact rendering of
numbers and NaN does not matter to any claim; what matters is that it is a
fixed function of the cell. -/
def cellStr : Cell → String
  | Cell.str s => s
  | Cell.num n => toString n
  | Cell.null => "nan"

/-- One row of the tide (Mares) table: columns `Data`, `Hora`, `Mare`, `Alt`
(lines 26-29 of the source describe them; the code accesses `Mare`, `Data`,
`Hora` and renames `Alt`). -/
structure TideRow where
  data : Cell
  hora : Cell
  mare : Cell
  alt : Cell
deriving DecidableEq, Repr

/-- The tide input table. The `has…` flags model whether the corresponding
column is present in the uploaded sheet: accessing a missing column raises a
`KeyError` in pandas, which the `except` block at line 63 turns into an
abort. When a flag is `false`, the corresponding field of each row is never
consulted. -/
structure TideInput where
  hasData : Bool
  hasHora : Bool
  hasMare : Bool
  hasAlt : Bool
  rows : List TideRow
deriving Repr

/-- One raw row of a temperature sheet: columns `Date`, `time`, the numeric
measurement columns (in column order), and the value of the
`ficheiro.origem` column when that column is present. -/
structure RawTempRow where
  date : Cell
  time : Cell
  meas : List Cell
  origem : Option Cell
deriving DecidableEq, Repr

/-- A temperature-sheet row after the `ficheiro.origem` column has been
dropped (line 78). -/
structure TempRow where
  date : Cell
  time : Cell
  meas : List Cell
deriving DecidableEq, Repr

/-- Dropping the `ficheiro.origem` column from a row (line 78). -/
def dropOrigem (r : RawTempRow) : TempRow :=
  { date := r.date, time := r.time, meas := r.meas }

/-- One sheet of the temperature workbook. The flags model presence of the
`Date` and `time` columns (checked at line 88). -/
structure TempSheet where
  name : String
  hasDate : Bool
  hasTime : Bool
  rows : List RawTempRow
deriving Repr

/-- Worker for `drop_duplicates`: keep a row iff it has not been seen
before, scanning left to right. -/
def dedupFirstAux (seen : List TempRow) : List TempRow → List TempRow
  | [] => []
  | r :: rs =>
    if r ∈ seen then dedupFirstAux seen rs
    else r :: dedupFirstAux (r :: seen) rs

/-- `df.drop_duplicates()` (line 82): keep the first occurrence of each row,
remove every later exact duplicate (pandas default `keep='first'`). -/
def dropDupsFirst (l : List TempRow) : List TempRow :=
  dedupFirstAux [] l

/-- Lines 77-83: drop `ficheiro.origem` if present, then remove exact
duplicates over the remaining columns. (When the column is absent every
row's `origem` field is `none`, so projecting is the identity on content.) -/
def cleanedRows (sheet : TempSheet) : List TempRow :=
  dropDupsFirst (sheet.rows.map dropOrigem)

/-- The duplicate count reported by the `st.warning` at line 85:
`initial_rows - df.shape[0]` after `drop_duplicates`. -/
def duplicatesRemoved (sheet : TempSheet) : Nat :=
  sheet.rows.length - (cleanedRows sheet).length

/-- Insert an element into a list sorted ascending by key `f`, keeping it
sorted. -/
def insertByKey (f : α → Int) (a : α) : List α → List α
  | [] => [a]
  | b :: l => if f a ≤ f b then a :: b :: l else b :: insertByKey f a l

/-- Sort a list ascending by an integer key (insertion sort), modelling
`df.sort_values(by=...)` on the datetime column (lines 60 and 96). pandas'
default sort is not stable, so no particular order among rows with equal
timestamps is mandated; any correct ascending sort is a faithful model. -/
def sortOn (f : α → Int) : List α → List α
  | [] => []
  | a :: l => insertByKey f a (sortOn f l)

/-- A temperature row together with its composed `Temp_DateTime`
(line 94), for rows where parsing succeeded. -/
structure StampedTemp where
  row : TempRow
  ts : Int
deriving DecidableEq, Repr

/-- Line 94: `pd.to_datetime(str(Date) + ' ' + str(time), errors='coerce')`;
the subsequent `dropna` (line 95) discards rows whose timestamp is `NaT`,
which `filterMap` realises. -/
def stampTemp (parse : String → Option Int) (r : TempRow) : Option StampedTemp :=
  (parse (cellStr r.date ++ " " ++ cellStr r.time)).map (fun t => ⟨r, t⟩)

/-- Lines 76-98: normalise one temperature sheet. Returns `none` when the
sheet is skipped (`continue` at line 90: empty after duplicate removal, or
missing the `Date` or `time` column), otherwise the cleaned, stamped,
sorted rows. -/
def processTempSheet (parse : String → Option Int) (sheet : TempSheet) :
    Option (List StampedTemp) :=
  let cleaned := cleanedRows sheet
  if cleaned.isEmpty || !sheet.hasDate || !sheet.hasTime then
    none
  else
    some (sortOn (fun s => s.ts) (cleaned.filterMap (stampTemp parse)))

/-- A tide row together with its composed `Mares_DateTime` (line 58). The
renames `Alt → Mares_Alt`, `Mare → Mares_Mare` (line 61) are column
relabelings and do not change row content. -/
structure Event where
  row : TideRow
  ts : Int
deriving DecidableEq, Repr

/-- Line 58 and the `dropna` at line 59, for one tide row. -/
def stampTide (parse : String → Option Int) (r : TideRow) : Option Event :=
  (parse (cellStr r.data ++ " " ++ cellStr r.hora)).map (fun t => ⟨r, t⟩)

/-- Line 54: `df_mares[df_mares['Mare'] == 'Preia-Mar']`. Pandas elementwise
`==` against the string literal is exact: case-sensitive, no trimming, and
a NaN cell compares unequal. -/
def filterPreiaMar (rows : List TideRow) : List TideRow :=
  rows.filter (fun r => r.mare = Cell.str "Preia-Mar")

/-- Lines 49-65: prepare the tide table. Accessing `Mare` (line 54), `Hora`
(line 57) or `Data` (line 58) when the column is missing raises `KeyError`,
caught at line 63 → `st.error` + `st.stop`, i.e. the whole invocation
aborts. Otherwise: filter to `Preia-Mar`, compose timestamps, drop
unparseable rows, sort ascending. -/
def prepareMares (parse : String → Option Int) (inp : TideInput) :
    Except String (List Event) :=
  if inp.hasMare && inp.hasData && inp.hasHora then
    Except.ok (sortOn (fun e => e.ts) ((filterPreiaMar inp.rows).filterMap (stampTide parse)))
  else
    Except.error "Error processing Tide Data. Please ensure the file format and column names are correct"

/-- The fixed tolerance `pd.Timedelta('1 hour')` (line 120), in seconds. -/
def toleranceSeconds : Int := 3600

/-- The candidate `merge_asof(..., direction='nearest')` selects for a left
key `t`, before the tolerance test: the nearest of the backward candidate
(greatest sensor timestamp ≤ t, i.e. the last such row of the sorted list)
and the forward candidate (least sensor timestamp ≥ t, i.e. the first such
row), preferring the backward one on an exact tie — this is pandas'
behaviour for `direction='nearest'`. -/
def candNearest (t : Int) (sensors : List StampedTemp) : Option StampedTemp :=
  match (sensors.filter (fun s => decide (s.ts ≤ t))).getLast?,
        (sensors.filter (fun s => decide (t ≤ s.ts))).head? with
  | some b, some f => if t - b.ts ≤ f.ts - t then some b else some f
  | some b, none => some b
  | none, some f => some f
  | none, none => none

/-- `merge_asof` with `direction='nearest'` and a tolerance: the nearest
candidate is kept only if its absolute time difference is within the
tolerance (pandas tolerance is inclusive); otherwise the row is
null-matched. -/
def nearestWithin (tol t : Int) (sensors : List StampedTemp) : Option StampedTemp :=
  match candNearest t sensors with
  | some c => if |c.ts - t| ≤ tol then some c else none
  | none => none

/-- One row of a merged sheet: the event row, the matched sensor row (or
`none` when null-matched), and the `Source_Temp_Sheet` tag (line 122). -/
structure MergedRow where
  event : Event
  sensor : Option StampedTemp
  sourceSheet : String
deriving DecidableEq, Repr

/-- Lines 114-122: `pd.merge_asof(df_mares, df_temp_sheet, ...,
direction='nearest', tolerance=pd.Timedelta('1 hour'))` followed by tagging
with the sheet name. One output row per event row, in event order. -/
def mergeAsofNearest (tol : Int) (events : List Event)
    (sensors : List StampedTemp) (name : String) : List MergedRow :=
  events.map (fun e => ⟨e, nearestWithin tol e.ts sensors, name⟩)

/-- Lines 73-98: normalise every sheet of the workbook in order, keeping
(name, rows) for the sheets that were not skipped. A skipped sheet is
simply absent (`continue`); it does not disturb the others. -/
def processedPairs (parse : String → Option Int) (sheets : List TempSheet) :
    List (String × List StampedTemp) :=
  sheets.filterMap (fun s => (processTempSheet parse s).map (fun rows => (s.name, rows)))

/-- Lines 44-130: the whole `process_and_merge_data`. The result mapping is
the ordered association list from sheet name to merged rows (Python dicts
preserve insertion order). `Except.error` models `st.error` + `st.stop`:
the invocation aborts and no mapping is produced. -/
def pipeline (parse : String → Option Int) (tide : TideInput)
    (sheets : List TempSheet) : Except String (List (String × List MergedRow)) :=
  match prepareMares parse tide with
  | Except.error msg => Except.error msg
  | Except.ok events =>
    let processed := processedPairs parse sheets
    if processed.isEmpty then
      Except.error "No valid temperature data sheets found after processing."
    else
      let merged := processed.map (fun p => (p.1, mergeAsofNearest toleranceSeconds events p.2 p.1))
      if merged.isEmpty then
        Except.error "No data was merged. Please check your input files and processing steps."
      else
        Except.ok merged

/-! ## Helper lemmas -/

theorem mem_dedupFirstAux : ∀ (l seen : List TempRow) (x : TempRow),
    x ∈ dedupFirstAux seen l ↔ x ∈ l ∧ x ∉ seen
  | [], seen, x => by simp [dedupFirstAux]
  | r :: rs, seen, x => by
    rw [dedupFirstAux]
    by_cases hr : r ∈ seen
    · rw [if_pos hr, mem_dedupFirstAux rs seen x]
      constructor
      · rintro ⟨hx, hns⟩; exact ⟨List.mem_cons_of_mem _ hx, hns⟩
      · rintro ⟨hx, hns⟩
        rcases List.mem_cons.mp hx with rfl | hx
        · exact absurd hr hns
        · exact ⟨hx, hns⟩
    · rw [if_neg hr]
      simp only [List.mem_cons, mem_dedupFirstAux rs (r :: seen) x]
      constructor
      · rintro (rfl | ⟨hx, hns⟩)
        · exact ⟨Or.inl rfl, hr⟩
        · exact ⟨Or.inr hx, fun h => hns (Or.inr h)⟩
      · rintro ⟨hx, hns⟩
        by_cases hxr : x = r
        · exact Or.inl hxr
        · rcases hx with rfl | hx
          · exact absurd rfl hxr
          · refine Or.inr ⟨hx, fun h => ?_⟩
            rcases h with rfl | h
            · exact hxr rfl
            · exact hns h

/-- Membership is unchanged by duplicate removal. -/
theorem mem_dropDupsFirst (l : List TempRow) (x : TempRow) :
    x ∈ dropDupsFirst l ↔ x ∈ l := by
  rw [dropDupsFirst, mem_dedupFirstAux]
  simp

theorem nodup_dedupFirstAux : ∀ (l seen : List TempRow),
    (dedupFirstAux seen l).Nodup
  | [], seen => by simp [dedupFirstAux]
  | r :: rs, seen => by
    rw [dedupFirstAux]
    by_cases hr : r ∈ seen
    · rw [if_pos hr]; exact nodup_dedupFirstAux rs seen
    · rw [if_neg hr]
      refine List.nodup_cons.mpr ⟨?_, nodup_dedupFirstAux rs (r :: seen)⟩
      intro hmem
      exact (mem_dedupFirstAux rs (r :: seen) r).mp hmem |>.2 (List.mem_cons_self _ _)

/-- The result of duplicate removal has no duplicate rows. -/
theorem nodup_dropDupsFirst (l : List TempRow) : (dropDupsFirst l).Nodup :=
  nodup_dedupFirstAux l []

theorem length_dedupFirstAux_le : ∀ (l seen : List TempRow),
    (dedupFirstAux seen l).length ≤ l.length
  | [], _ => by simp [dedupFirstAux]
  | r :: rs, seen => by
    rw [dedupFirstAux]
    by_cases hr : r ∈ seen
    · rw [if_pos hr]
      exact Nat.le_trans (length_dedupFirstAux_le rs seen) (Nat.le_succ _)
    · rw [if_neg hr]
      simpa using length_dedupFirstAux_le rs (r :: seen)

theorem length_dropDupsFirst_le (l : List TempRow) :
    (dropDupsFirst l).length ≤ l.length :=
  length_dedupFirstAux_le l []

theorem mem_insertByKey {f : α → Int} {a x : α} : ∀ {l : List α},
    x ∈ insertByKey f a l ↔ x = a ∨ x ∈ l
  | [] => by simp [insertByKey]
  | b :: l => by
    rw [insertByKey]
    by_cases hab : f a ≤ f b
    · rw [if_pos hab]; simp
    · rw [if_neg hab]
      simp only [List.mem_cons, mem_insertByKey]
      tauto

theorem length_insertByKey {f : α → Int} {a : α} : ∀ (l : List α),
    (insertByKey f a l).length = l.length + 1
  | [] => by simp [insertByKey]
  | b :: l => by
    rw [insertByKey]
    by_cases hab : f a ≤ f b
    · rw [if_pos hab]; simp
    · rw [if_neg hab]
      simp [length_insertByKey l]

theorem pairwise_insertByKey {f : α → Int} {a : α} : ∀ {l : List α},
    l.Pairwise (fun x y => f x ≤ f y) →
    (insertByKey f a l).Pairwise (fun x y => f x ≤ f y)
  | [], _ => by simp [insertByKey]
  | b :: l, h => by
    rw [insertByKey]
    rcases List.pairwise_cons.mp h with ⟨hb, hl⟩
    by_cases hab : f a ≤ f b
    · rw [if_pos hab]
      refine List.pairwise_cons.mpr ⟨?_, h⟩
      intro y hy
      rcases List.mem_cons.mp hy with rfl | hy
      · exact hab
      · exact le_trans hab (hb y hy)
    · rw [if_neg hab]
      refine List.pairwise_cons.mpr ⟨?_, pairwise_insertByKey hl⟩
      intro y hy
      rcases mem_insertByKey.mp hy with rfl | hy
      · omega
      · exact hb y hy

/-- `sortOn` preserves membership. -/
theorem mem_sortOn {f : α → Int} {x : α} : ∀ {l : List α},
    x ∈ sortOn f l ↔ x ∈ l
  | [] => by simp [sortOn]
  | a :: l => by
    rw [sortOn, mem_insertByKey]
    simp [mem_sortOn]

/-- `sortOn` preserves length. -/
theorem length_sortOn {f : α → Int} : ∀ (l : List α),
    (sortOn f l).length = l.length
  | [] => by simp [sortOn]
  | a :: l => by
    rw [sortOn, length_insertByKey]
    simp [length_sortOn l]

/-- `sortOn` sorts ascending by the key. -/
theorem pairwise_sortOn {f : α → Int} : ∀ (l : List α),
    (sortOn f l).Pairwise (fun x y => f x ≤ f y)
  | [] => by simp [sortOn]
  | a :: l => by
    rw [sortOn]
    exact pairwise_insertByKey (pairwise_sortOn l)

/-- In a list sorted ascending by key `f`, the last element is a maximum. -/
theorem le_of_getLast_pairwise {f : α → Int} : ∀ {l : List α},
    l.Pairwise (fun a b => f a ≤ f b) → ∀ {y}, l.getLast? = some y →
    ∀ x ∈ l, f x ≤ f y
  | [], _, _, hy => by simp at hy
  | a :: l, h, y, hy => by
    intro x hx
    rcases List.pairwise_cons.mp h with ⟨ha, hl⟩
    cases l with
    | nil =>
      simp at hy hx
      subst hy; subst hx; exact le_refl _
    | cons b t =>
      rw [List.getLast?_cons_cons] at hy
      have hyin : y ∈ b :: t := List.mem_of_getLast?_eq_some hy
      rcases List.mem_cons.mp hx with hxa | hxl
      · subst hxa; exact ha y hyin
      · exact le_of_getLast_pairwise hl hy x hxl

/-- In a list sorted ascending by key `f`, the head is a minimum. -/
theorem head_le_pairwise {f : α → Int} {l : List α}
    (h : l.Pairwise (fun a b => f a ≤ f b)) {y} (hy : l.head? = some y) :
    ∀ x ∈ l, f y ≤ f x := by
  cases l with
  | nil => simp at hy
  | cons a t =>
    simp only [List.head?_cons, Option.some.injEq] at hy
    subst hy
    rcases List.pairwise_cons.mp h with ⟨ha, _⟩
    intro x hx
    rcases List.mem_cons.mp hx with hxa | hxt
    · subst hxa; exact le_refl _
    · exact ha x hxt


theorem mem_of_head?_eq_some {l : List α} {a : α} (h : l.head? = some a) :
    a ∈ l := by
  cases l with
  | nil => simp at h
  | cons b t =>
    simp only [List.head?_cons, Option.some.injEq] at h
    subst h
    exact List.mem_cons_self _ _

/-- `candNearest` on a sorted sensor list: when it returns a row, that row is
a sensor row minimizing the absolute time difference to `t`; it returns
`none` exactly on the empty list. -/
theorem candNearest_spec (t : Int) {sensors : List StampedTemp}
    (hs : sensors.Pairwise (fun a b => a.ts ≤ b.ts)) :
    (∀ c, candNearest t sensors = some c →
      c ∈ sensors ∧ ∀ s ∈ sensors, |c.ts - t| ≤ |s.ts - t|)
    ∧ (candNearest t sensors = none → sensors = []) := by
  have hbs : (sensors.filter (fun s => decide (s.ts ≤ t))).Pairwise
      (fun a b => a.ts ≤ b.ts) := List.Pairwise.filter _ hs
  have hfs : (sensors.filter (fun s => decide (t ≤ s.ts))).Pairwise
      (fun a b => a.ts ≤ b.ts) := List.Pairwise.filter _ hs
  -- facts about the backward candidate
  have hbfact : ∀ {b}, (sensors.filter (fun s => decide (s.ts ≤ t))).getLast? = some b →
      b ∈ sensors ∧ b.ts ≤ t ∧ ∀ s ∈ sensors, s.ts ≤ t → |b.ts - t| ≤ |s.ts - t| := by
    intro b hb
    have hmem := List.mem_of_getLast?_eq_some hb
    have hble : b.ts ≤ t := by
      have := (List.mem_filter.mp hmem).2
      simpa using this
    refine ⟨(List.mem_filter.mp hmem).1, hble, ?_⟩
    intro s hsmem hst
    have hsin : s ∈ sensors.filter (fun s => decide (s.ts ≤ t)) :=
      List.mem_filter.mpr ⟨hsmem, by simpa using hst⟩
    have hle : s.ts ≤ b.ts := le_of_getLast_pairwise hbs hb s hsin
    have h1 : |b.ts - t| = t - b.ts := by
      rw [abs_sub_comm]; exact abs_of_nonneg (by omega)
    have h2 : |s.ts - t| = t - s.ts := by
      rw [abs_sub_comm]; exact abs_of_nonneg (by omega)
    omega
  -- facts about the forward candidate
  have hffact : ∀ {f}, (sensors.filter (fun s => decide (t ≤ s.ts))).head? = some f →
      f ∈ sensors ∧ t ≤ f.ts ∧ ∀ s ∈ sensors, t ≤ s.ts → |f.ts - t| ≤ |s.ts - t| := by
    intro f hf
    have hmem : f ∈ sensors.filter (fun s => decide (t ≤ s.ts)) :=
      mem_of_head?_eq_some hf
    have hfge : t ≤ f.ts := by
      have := (List.mem_filter.mp hmem).2
      simpa using this
    refine ⟨(List.mem_filter.mp hmem).1, hfge, ?_⟩
    intro s hsmem hst
    have hsin : s ∈ sensors.filter (fun s => decide (t ≤ s.ts)) :=
      List.mem_filter.mpr ⟨hsmem, by simpa using hst⟩
    have hle : f.ts ≤ s.ts := head_le_pairwise hfs hf s hsin
    have h1 : |f.ts - t| = f.ts - t := abs_of_nonneg (by omega)
    have h2 : |s.ts - t| = s.ts - t := abs_of_nonneg (by omega)
    omega
  rcases hb : (sensors.filter (fun s => decide (s.ts ≤ t))).getLast? with _ | b <;>
    rcases hf : (sensors.filter (fun s => decide (t ≤ s.ts))).head? with _ | f
  · -- no candidate on either side: the sensor list is empty
    have hcand : candNearest t sensors = none := by
      simp only [candNearest, hb, hf]
    constructor
    · intro c hc; rw [hcand] at hc; exact absurd hc (by simp)
    · intro _
      have hbnil := List.getLast?_eq_none_iff.mp hb
      have hfnil := List.head?_eq_none_iff.mp hf
      cases hsens : sensors with
      | nil => rfl
      | cons a u =>
        exfalso
        rcases le_total a.ts t with hle | hle
        · have : a ∈ List.filter (fun s => decide (s.ts ≤ t)) sensors := by
            rw [hsens]
            exact List.mem_filter.mpr ⟨List.mem_cons_self _ _, by simpa using hle⟩
          rw [hbnil] at this; simp at this
        · have : a ∈ List.filter (fun s => decide (t ≤ s.ts)) sensors := by
            rw [hsens]
            exact List.mem_filter.mpr ⟨List.mem_cons_self _ _, by simpa using hle⟩
          rw [hfnil] at this; simp at this
  · -- only a forward candidate: every sensor timestamp is ≥ t
    have hcand : candNearest t sensors = some f := by
      simp only [candNearest, hb, hf]
    rcases hffact hf with ⟨hfmem, hfge, hfmin⟩
    constructor
    · intro c hc
      rw [hcand] at hc
      simp only [Option.some.injEq] at hc
      subst hc
      refine ⟨hfmem, ?_⟩
      intro s hsmem
      by_cases h : s.ts ≤ t
      · exfalso
        have : s ∈ sensors.filter (fun x => decide (x.ts ≤ t)) :=
          List.mem_filter.mpr ⟨hsmem, by simpa using h⟩
        rw [List.getLast?_eq_none_iff.mp hb] at this; simp at this
      · exact hfmin s hsmem (by omega)
    · intro h; rw [hcand] at h; exact absurd h (by simp)
  · -- only a backward candidate: every sensor timestamp is ≤ t
    have hcand : candNearest t sensors = some b := by
      simp only [candNearest, hb, hf]
    rcases hbfact hb with ⟨hbmem, hble, hbmin⟩
    constructor
    · intro c hc
      rw [hcand] at hc
      simp only [Option.some.injEq] at hc
      subst hc
      refine ⟨hbmem, ?_⟩
      intro s hsmem
      by_cases h : s.ts ≤ t
      · exact hbmin s hsmem h
      · exfalso
        have : s ∈ sensors.filter (fun x => decide (t ≤ x.ts)) :=
          List.mem_filter.mpr ⟨hsmem, by simp; omega⟩
        rw [List.head?_eq_none_iff.mp hf] at this; simp at this
    · intro h; rw [hcand] at h; exact absurd h (by simp)
  · -- both candidates exist: the nearer wins, backward on ties
    have hcand : candNearest t sensors =
        if t - b.ts ≤ f.ts - t then some b else some f := by
      simp only [candNearest, hb, hf]
    rcases hbfact hb with ⟨hbmem, hble, hbmin⟩
    rcases hffact hf with ⟨hfmem, hfge, hfmin⟩
    constructor
    · intro c hc
      rw [hcand] at hc
      by_cases hcase : t - b.ts ≤ f.ts - t
      · rw [if_pos hcase] at hc
        simp only [Option.some.injEq] at hc
        subst hc
        refine ⟨hbmem, ?_⟩
        intro s hsmem
        have habs_b : |b.ts - t| = t - b.ts := by
          rw [abs_sub_comm]; exact abs_of_nonneg (by omega)
        rcases le_total s.ts t with h | h
        · exact hbmin s hsmem h
        · have := hfmin s hsmem h
          have habs_f : |f.ts - t| = f.ts - t := abs_of_nonneg (by omega)
          omega
      · rw [if_neg hcase] at hc
        simp only [Option.some.injEq] at hc
        subst hc
        refine ⟨hfmem, ?_⟩
        intro s hsmem
        have habs_f : |f.ts - t| = f.ts - t := abs_of_nonneg (by omega)
        rcases le_total s.ts t with h | h
        · have := hbmin s hsmem h
          have habs_b : |b.ts - t| = t - b.ts := by
            rw [abs_sub_comm]; exact abs_of_nonneg (by omega)
          omega
        · exact hfmin s hsmem h
    · intro h
      rw [hcand] at h
      by_cases hcase : t - b.ts ≤ f.ts - t <;> simp [hcase] at h

/-- `nearestWithin` on a sorted sensor list: a returned row is a closest
sensor row and lies within the tolerance; `none` is returned iff the sensor
list is empty or every sensor row is strictly farther than the tolerance. -/
theorem nearestWithin_spec (tol t : Int) {sensors : List StampedTemp}
    (hs : sensors.Pairwise (fun a b => a.ts ≤ b.ts)) :
    (∀ c, nearestWithin tol t sensors = some c →
      c ∈ sensors ∧ |c.ts - t| ≤ tol ∧ ∀ s ∈ sensors, |c.ts - t| ≤ |s.ts - t|)
    ∧ (nearestWithin tol t sensors = none ↔
      sensors = [] ∨ ∀ s ∈ sensors, tol < |s.ts - t|) := by
  rcases hcand : candNearest t sensors with _ | c0
  · have hnil := (candNearest_spec t hs).2 hcand
    subst hnil
    constructor
    · intro c hc
      simp [nearestWithin, hcand] at hc
    · simp [nearestWithin, hcand]
  · rcases (candNearest_spec t hs).1 c0 hcand with ⟨hc0mem, hc0min⟩
    have hnw : nearestWithin tol t sensors =
        if |c0.ts - t| ≤ tol then some c0 else none := by
      simp only [nearestWithin, hcand]
    constructor
    · intro c hc
      rw [hnw] at hc
      by_cases h : |c0.ts - t| ≤ tol
      · rw [if_pos h] at hc
        simp only [Option.some.injEq] at hc
        subst hc
        exact ⟨hc0mem, h, hc0min⟩
      · rw [if_neg h] at hc; exact absurd hc (by simp)
    · rw [hnw]
      by_cases h : |c0.ts - t| ≤ tol
      · rw [if_pos h]
        simp only [iff_false_intro (by simp : ¬ (some c0 = none)), false_iff]
        push_neg
        refine ⟨?_, c0, hc0mem, by omega⟩
        intro hnil
        subst hnil
        simp at hc0mem
      · rw [if_neg h]
        simp only [true_iff]
        right
        intro s hsmem
        have := hc0min s hsmem
        omega

/-- Membership in a merged sheet: exactly the event rows, each paired with
the nearest-within-tolerance sensor row for its timestamp. -/
theorem mem_mergeAsofNearest {tol : Int} {events : List Event}
    {sensors : List StampedTemp} {name : String} {m : MergedRow} :
    m ∈ mergeAsofNearest tol events sensors name ↔
    ∃ e ∈ events, m = ⟨e, nearestWithin tol e.ts sensors, name⟩ := by
  simp only [mergeAsofNearest, List.mem_map]
  constructor
  · rintro ⟨e, he, rfl⟩; exact ⟨e, he, rfl⟩
  · rintro ⟨e, he, rfl⟩; exact ⟨e, he, rfl⟩

/-! ## Demo fixtures for witnesses

A concrete stand-in for the external datetime parser: it accepts exactly
the strings "d t" where both parts are integer literals, and maps them to
d·86400 + t seconds. Any function of this type is a valid instantiation of
the abstract parser. -/

def demoParse (s : String) : Option Int :=
  match s.splitOn " " with
  | [d, u] =>
    match d.toInt?, u.toInt? with
    | some dv, some uv => some (dv * 86400 + uv)
    | _, _ => none
  | _ => none

def demoTideRow : TideRow :=
  { data := Cell.num 0, hora := Cell.num 0,
    mare := Cell.str "Preia-Mar", alt := Cell.num 2 }

def demoTempRowNear : TempRow :=
  { date := Cell.num 0, time := Cell.num 3599, meas := [Cell.num 18] }

def demoTempRowFar : TempRow :=
  { date := Cell.num 0, time := Cell.num 3601, meas := [Cell.num 18] }

def demoEvent : Event := { row := demoTideRow, ts := 0 }

/-- One sensor row 59 min 59 s after the event. -/
def demoNear : List StampedTemp := [{ row := demoTempRowNear, ts := 3599 }]

/-- One sensor row 1 h 0 min 1 s after the event. -/
def demoFar : List StampedTemp := [{ row := demoTempRowFar, ts := 3601 }]

def demoMergedNear : MergedRow :=
  { event := demoEvent, sensor := nearestWithin toleranceSeconds 0 demoNear,
    sourceSheet := "A" }

def demoMergedFar : MergedRow :=
  { event := demoEvent, sensor := nearestWithin toleranceSeconds 0 demoFar,
    sourceSheet := "A" }

/-! ## Claims -/

/-- C1: every row of a merged sheet pairs its event row with a sensor row
whose timestamp is closest in absolute time difference to the event's
timestamp among all sensor rows, and that difference is within the 1-hour
tolerance; the sensor side is null exactly when no sensor row exists or
every sensor row is strictly farther than the tolerance (so a reading
59 min 59 s away is matched and one 1 h 1 s away is not). -/
theorem claim_C1_nearest_match_within_tolerance
    (events : List Event) (sensors : List StampedTemp) (name : String)
    (m : MergedRow)
    (hs : sensors.Pairwise (fun a b => a.ts ≤ b.ts))
    (hm : m ∈ mergeAsofNearest toleranceSeconds events sensors name) :
    (∀ c, m.sensor = some c →
      c ∈ sensors ∧ |c.ts - m.event.ts| ≤ toleranceSeconds ∧
      ∀ s ∈ sensors, |c.ts - m.event.ts| ≤ |s.ts - m.event.ts|)
    ∧ (m.sensor = none ↔
      sensors = [] ∨ ∀ s ∈ sensors, toleranceSeconds < |s.ts - m.event.ts|) := by
  rcases mem_mergeAsofNearest.mp hm with ⟨e, _, rfl⟩
  exact nearestWithin_spec toleranceSeconds e.ts hs

/-- Witness for C1 at the tolerance boundary: a single sensor reading
3599 s away is matched, one 3601 s away is null-matched. -/
theorem claim_C1_nearest_match_within_tolerance_witness :
    (List.Pairwise (fun a b : StampedTemp => a.ts ≤ b.ts) demoNear
      ∧ demoMergedNear ∈ mergeAsofNearest toleranceSeconds [demoEvent] demoNear "A"
      ∧ ((∀ c, demoMergedNear.sensor = some c →
          c ∈ demoNear ∧ |c.ts - demoMergedNear.event.ts| ≤ toleranceSeconds ∧
          ∀ s ∈ demoNear, |c.ts - demoMergedNear.event.ts| ≤ |s.ts - demoMergedNear.event.ts|)
        ∧ (demoMergedNear.sensor = none ↔
          demoNear = [] ∨ ∀ s ∈ demoNear, toleranceSeconds < |s.ts - demoMergedNear.event.ts|))
      ∧ demoMergedNear.sensor = some { row := demoTempRowNear, ts := 3599 })
    ∧ (List.Pairwise (fun a b : StampedTemp => a.ts ≤ b.ts) demoFar
      ∧ demoMergedFar ∈ mergeAsofNearest toleranceSeconds [demoEvent] demoFar "A"
      ∧ ((∀ c, demoMergedFar.sensor = some c →
          c ∈ demoFar ∧ |c.ts - demoMergedFar.event.ts| ≤ toleranceSeconds ∧
          ∀ s ∈ demoFar, |c.ts - demoMergedFar.event.ts| ≤ |s.ts - demoMergedFar.event.ts|)
        ∧ (demoMergedFar.sensor = none ↔
          demoFar = [] ∨ ∀ s ∈ demoFar, toleranceSeconds < |s.ts - demoMergedFar.event.ts|))
      ∧ demoMergedFar.sensor = none) :=
  ⟨⟨by decide, by decide,
    claim_C1_nearest_match_within_tolerance [demoEvent] demoNear "A" demoMergedNear
      (by decide) (by decide),
    by decide⟩,
   ⟨by decide, by decide,
    claim_C1_nearest_match_within_tolerance [demoEvent] demoFar "A" demoMergedFar
      (by decide) (by decide),
    by decide⟩⟩

/-- One output row per event row: `mergeAsofNearest` maps over the event
table. -/
theorem length_mergeAsofNearest (tol : Int) (events : List Event)
    (sensors : List StampedTemp) (name : String) :
    (mergeAsofNearest tol events sensors name).length = events.length :=
  List.length_map _ _


/-- Characterisation of a successful pipeline run: the tide table prepared
without error, at least one sensor sheet survived, and the result mapping
is the surviving sheets in order, each merged against the event table. -/
theorem pipeline_ok_iff (parse : String → Option Int) (tide : TideInput)
    (sheets : List TempSheet) (res : List (String × List MergedRow)) :
    pipeline parse tide sheets = Except.ok res ↔
    ∃ events, prepareMares parse tide = Except.ok events ∧
      processedPairs parse sheets ≠ [] ∧
      res = (processedPairs parse sheets).map
        (fun p => (p.1, mergeAsofNearest toleranceSeconds events p.2 p.1)) := by
  rcases h : prepareMares parse tide with msg | events
  · have hp : pipeline parse tide sheets = Except.error msg := by
      simp only [pipeline, h]
    rw [hp]
    simp [h]
  · by_cases hemp : processedPairs parse sheets = []
    · have hp : pipeline parse tide sheets =
          Except.error "No valid temperature data sheets found after processing." := by
        simp only [pipeline, h, hemp]
        simp
      rw [hp]
      simp [hemp]
    · have hne : (processedPairs parse sheets).isEmpty = false := by
        simpa [List.isEmpty_iff] using hemp
      have hmapne : ((processedPairs parse sheets).map
          (fun p => (p.1, mergeAsofNearest toleranceSeconds events p.2 p.1))).isEmpty = false := by
        simp [List.isEmpty_iff, hemp]
      have hp : pipeline parse tide sheets = Except.ok
          ((processedPairs parse sheets).map
            (fun p => (p.1, mergeAsofNearest toleranceSeconds events p.2 p.1))) := by
        simp only [pipeline, h, hne, hmapne, Bool.false_eq_true, if_false]
      rw [hp]
      constructor
      · intro hr
        refine ⟨events, rfl, hemp, ?_⟩
        exact ((Except.ok.injEq _ _).mp hr).symm
      · rintro ⟨ev, hev, _, hr⟩
        have hee : events = ev := (Except.ok.injEq _ _).mp hev
        subst hee
        rw [hr]

/-- Inversion for `prepareMares`: success means the required columns are
present and the event table is the filtered, stamped, sorted rows. -/
theorem prepareMares_ok_iff (parse : String → Option Int) (inp : TideInput)
    (events : List Event) :
    prepareMares parse inp = Except.ok events ↔
    (inp.hasMare && inp.hasData && inp.hasHora) = true ∧
    events = sortOn (fun e => e.ts)
      ((filterPreiaMar inp.rows).filterMap (stampTide parse)) := by
  by_cases hcond : (inp.hasMare && inp.hasData && inp.hasHora) = true
  · rw [prepareMares, if_pos hcond]
    simp only [Except.ok.injEq, hcond, true_and]
    exact ⟨fun h => h.symm, fun h => h.symm⟩
  · rw [prepareMares, if_neg hcond]
    simp [hcond]

/-- More pipeline demo fixtures: a two-row tide table (one `Preia-Mar`, one
`Baixa-Mar`), a well-formed sensor sheet "A", and a sheet "B" missing the
`time` column. `demoParse` recognises exactly the three date/time strings
these fixtures produce. -/
def demoParseFix (s : String) : Option Int :=
  if s = "0 28800" then some 28800
  else if s = "0 50400" then some 50400
  else if s = "0 29100" then some 29100
  else none

def demoPreiaRow : TideRow :=
  { data := Cell.str "0", hora := Cell.str "28800",
    mare := Cell.str "Preia-Mar", alt := Cell.num 2 }

def demoBaixaRow : TideRow :=
  { data := Cell.str "0", hora := Cell.str "50400",
    mare := Cell.str "Baixa-Mar", alt := Cell.num 0 }

def demoTide : TideInput :=
  { hasData := true, hasHora := true, hasMare := true, hasAlt := true,
    rows := [demoPreiaRow, demoBaixaRow] }

def demoSheetA : TempSheet :=
  { name := "A", hasDate := true, hasTime := true,
    rows := [{ date := Cell.str "0", time := Cell.str "29100",
               meas := [Cell.num 18], origem := none }] }

def demoSheetB : TempSheet :=
  { name := "B", hasDate := true, hasTime := false,
    rows := [{ date := Cell.str "0", time := Cell.str "1",
               meas := [Cell.num 7], origem := none }] }

def demoEvents : List Event := [{ row := demoPreiaRow, ts := 28800 }]

/-- C2: every merged sheet in the result mapping has exactly as many rows as
the normalized event table, which in turn counts the event rows that passed
the "Preia-Mar" filter and have a valid composed timestamp — regardless of
the sensor table's size. -/
theorem claim_C2_merge_cardinality
    (parse : String → Option Int) (tide : TideInput) (sheets : List TempSheet)
    (events : List Event) (res : List (String × List MergedRow))
    (hev : prepareMares parse tide = Except.ok events)
    (hres : pipeline parse tide sheets = Except.ok res) :
    (∀ p ∈ res, p.2.length = events.length) ∧
    events.length = ((filterPreiaMar tide.rows).filterMap (stampTide parse)).length := by
  rcases (pipeline_ok_iff parse tide sheets res).mp hres with ⟨ev, hev2, _, hr⟩
  rw [hev] at hev2
  have hee : events = ev := (Except.ok.injEq _ _).mp hev2
  subst hee
  constructor
  · intro p hp
    rw [hr] at hp
    rcases List.mem_map.mp hp with ⟨q, _, rfl⟩
    exact length_mergeAsofNearest _ _ _ _
  · rcases (prepareMares_ok_iff parse tide events).mp hev with ⟨_, hevdef⟩
    rw [hevdef, length_sortOn]

/-- Witness for C2: the demo run has one surviving sheet whose merged table
has exactly one row, matching the single `Preia-Mar` event. -/
theorem claim_C2_merge_cardinality_witness :
    prepareMares demoParseFix demoTide = Except.ok demoEvents ∧
    pipeline demoParseFix demoTide [demoSheetA] =
      Except.ok [("A", mergeAsofNearest toleranceSeconds demoEvents
        [{ row := { date := Cell.str "0", time := Cell.str "29100",
                    meas := [Cell.num 18] }, ts := 29100 }] "A")] ∧
    ((∀ p ∈ [("A", mergeAsofNearest toleranceSeconds demoEvents
        [{ row := { date := Cell.str "0", time := Cell.str "29100",
                    meas := [Cell.num 18] }, ts := 29100 }] "A")],
      p.2.length = demoEvents.length) ∧
    demoEvents.length =
      ((filterPreiaMar demoTide.rows).filterMap (stampTide demoParseFix)).length) :=
  ⟨rfl, rfl,
   claim_C2_merge_cardinality demoParseFix demoTide [demoSheetA] demoEvents _ rfl rfl⟩

/-- C3: the event filter keeps exactly the rows whose `Mare` cell equals the
string "Preia-Mar" — case-sensitive, untrimmed, with null cells excluded.
The concrete part shows a `Baixa-Mar` row, a null-`Mare` row, a lowercase
"preia-mar" row and a trailing-space "Preia-Mar " row all being dropped. -/
theorem claim_C3_filter_preia_mar_exact :
    (∀ (rows : List TideRow) (r : TideRow),
      r ∈ filterPreiaMar rows ↔ r ∈ rows ∧ r.mare = Cell.str "Preia-Mar")
    ∧ filterPreiaMar [demoPreiaRow, demoBaixaRow,
        { data := Cell.str "0", hora := Cell.str "1", mare := Cell.null, alt := Cell.num 1 },
        { data := Cell.str "0", hora := Cell.str "1", mare := Cell.str "preia-mar", alt := Cell.num 1 },
        { data := Cell.str "0", hora := Cell.str "1", mare := Cell.str "Preia-Mar ", alt := Cell.num 1 }]
      = [demoPreiaRow] := by
  constructor
  · intro rows r
    simp [filterPreiaMar, List.mem_filter]
  · decide

/-- A sheet with 2 identical rows and 3 distinct rows. -/
def demoDupSheet : TempSheet :=
  { name := "D", hasDate := true, hasTime := true,
    rows := [{ date := Cell.str "0", time := Cell.str "1", meas := [Cell.num 10], origem := none },
             { date := Cell.str "0", time := Cell.str "1", meas := [Cell.num 10], origem := none },
             { date := Cell.str "0", time := Cell.str "2", meas := [Cell.num 11], origem := none },
             { date := Cell.str "0", time := Cell.str "3", meas := [Cell.num 12], origem := none },
             { date := Cell.str "0", time := Cell.str "4", meas := [Cell.num 13], origem := none }] }

/-- C4: exact-duplicate rows are removed before timestamp derivation (the
cleaned rows are duplicate-free and contain exactly the distinct input rows)
and the removed count is reported as `initial rows − remaining rows`; on a
sheet with 2 identical and 3 unique rows, exactly 1 duplicate is removed
and 4 rows enter timestamp composition. -/
theorem claim_C4_duplicate_removal :
    (∀ sheet : TempSheet,
      (cleanedRows sheet).Nodup ∧
      (∀ x, x ∈ cleanedRows sheet ↔ x ∈ sheet.rows.map dropOrigem) ∧
      duplicatesRemoved sheet = sheet.rows.length - (cleanedRows sheet).length)
    ∧ duplicatesRemoved demoDupSheet = 1
    ∧ (cleanedRows demoDupSheet).length = 4 := by
  refine ⟨fun sheet => ⟨nodup_dropDupsFirst _, fun x => mem_dropDupsFirst _ _, rfl⟩, ?_, ?_⟩
  · decide
  · decide

/-- The normalized rows of demo sheet "A". -/
def demoStampedA : List StampedTemp :=
  [{ row := { date := Cell.str "0", time := Cell.str "29100",
              meas := [Cell.num 18] }, ts := 29100 }]

/-- C5: a sensor sheet is skipped exactly when it is empty after cleaning or
misses the `Date`/`time` column; a skipped sheet is absent from the result
and leaves the processing of every other sheet unchanged. Concretely, a
workbook with well-formed sheet "A" and sheet "B" missing the time column
yields a result mapping containing only "A"'s merge. -/
theorem claim_C5_sheet_independence :
    (∀ (parse : String → Option Int) (sheet : TempSheet),
      processTempSheet parse sheet = none ↔
      (cleanedRows sheet).isEmpty = true ∨ sheet.hasDate = false ∨ sheet.hasTime = false)
    ∧ (∀ (parse : String → Option Int) (pre post : List TempSheet) (s : TempSheet),
        processTempSheet parse s = none →
        processedPairs parse (pre ++ s :: post) = processedPairs parse (pre ++ post))
    ∧ pipeline demoParseFix demoTide [demoSheetA, demoSheetB] =
        Except.ok [("A", mergeAsofNearest toleranceSeconds demoEvents demoStampedA "A")] := by
  refine ⟨?_, ?_, rfl⟩
  · intro parse sheet
    by_cases hcond : ((cleanedRows sheet).isEmpty || !sheet.hasDate || !sheet.hasTime) = true
    · rw [processTempSheet]
      simp only [hcond, if_true]
      constructor
      · intro _
        have hc := hcond
        simp only [Bool.or_eq_true, Bool.not_eq_true'] at hc
        tauto
      · intro _; trivial
    · rw [processTempSheet]
      simp only [hcond, Bool.false_eq_true, if_false]
      constructor
      · intro h; exact absurd h (by simp)
      · intro h
        exfalso
        apply hcond
        simp only [Bool.or_eq_true, Bool.not_eq_eq_eq_not, Bool.not_true]
        rcases h with h | h | h
        · exact Or.inl (Or.inl h)
        · exact Or.inl (Or.inr h)
        · exact Or.inr h
  · intro parse pre post s hskip
    simp [processedPairs, List.filterMap_append, List.filterMap_cons, hskip]

/-- Witness for C5: sheet "B" (missing the time column) is skipped and its
presence in the workbook does not change the processing of sheet "A". -/
theorem claim_C5_sheet_independence_witness :
    processTempSheet demoParseFix demoSheetB = none ∧
    processedPairs demoParseFix ([demoSheetA] ++ demoSheetB :: []) =
      processedPairs demoParseFix ([demoSheetA] ++ []) ∧
    (processTempSheet demoParseFix demoSheetB = none ↔
      (cleanedRows demoSheetB).isEmpty = true ∨ demoSheetB.hasDate = false ∨
        demoSheetB.hasTime = false) :=
  ⟨rfl,
   claim_C5_sheet_independence.2.1 demoParseFix [demoSheetA] [] demoSheetB rfl,
   claim_C5_sheet_independence.1 demoParseFix demoSheetB⟩

/-- C6: if a required column (`Mare`, `Data` or `Hora`) is missing from the
event input, the whole invocation aborts with a descriptive message and no
result mapping is produced. -/
theorem claim_C6_event_failure_aborts
    (parse : String → Option Int) (tide : TideInput) (sheets : List TempSheet)
    (h : tide.hasMare = false ∨ tide.hasData = false ∨ tide.hasHora = false) :
    pipeline parse tide sheets = Except.error
      "Error processing Tide Data. Please ensure the file format and column names are correct"
    ∧ ∀ res, pipeline parse tide sheets ≠ Except.ok res := by
  have hcond : (tide.hasMare && tide.hasData && tide.hasHora) = false := by
    rcases h with h | h | h <;> simp [h]
  have hprep : prepareMares parse tide = Except.error
      "Error processing Tide Data. Please ensure the file format and column names are correct" := by
    rw [prepareMares, if_neg (by simp [hcond])]
  have hp : pipeline parse tide sheets = Except.error
      "Error processing Tide Data. Please ensure the file format and column names are correct" := by
    simp only [pipeline, hprep]
  exact ⟨hp, fun res hok => by rw [hp] at hok; exact absurd hok (by simp)⟩

/-- Witness for C6: a tide table missing the `Mare` column aborts the demo
invocation. -/
theorem claim_C6_event_failure_aborts_witness :
    ({ demoTide with hasMare := false } : TideInput).hasMare = false ∧
    (pipeline demoParseFix { demoTide with hasMare := false } [demoSheetA] = Except.error
      "Error processing Tide Data. Please ensure the file format and column names are correct"
    ∧ ∀ res, pipeline demoParseFix { demoTide with hasMare := false } [demoSheetA]
        ≠ Except.ok res) :=
  ⟨rfl,
   claim_C6_event_failure_aborts demoParseFix { demoTide with hasMare := false }
     [demoSheetA] (Or.inl rfl)⟩

/-- A tide table whose only row is not a `Preia-Mar` event. -/
def demoTideNoPreia : TideInput :=
  { hasData := true, hasHora := true, hasMare := true, hasAlt := true,
    rows := [demoBaixaRow] }

/-- C7: when the normalized event table is empty, every surviving sensor
sheet still appears in the result mapping, with a merged table of exactly
0 rows. -/
theorem claim_C7_empty_events
    (parse : String → Option Int) (tide : TideInput) (sheets : List TempSheet)
    (hev : prepareMares parse tide = Except.ok [])
    (hne : processedPairs parse sheets ≠ []) :
    pipeline parse tide sheets =
      Except.ok ((processedPairs parse sheets).map (fun p => (p.1, ([] : List MergedRow))))
    ∧ ∀ p ∈ (processedPairs parse sheets).map (fun p => (p.1, ([] : List MergedRow))),
        p.2.length = 0 := by
  constructor
  · exact (pipeline_ok_iff parse tide sheets _).mpr ⟨[], hev, hne, rfl⟩
  · intro p hp
    rcases List.mem_map.mp hp with ⟨q, _, rfl⟩
    rfl

/-- Witness for C7: the demo tide file whose rows are all `Baixa-Mar`
filters to an empty event table, and sheet "A" still yields a 0-row merged
table. -/
theorem claim_C7_empty_events_witness :
    prepareMares demoParseFix demoTideNoPreia = Except.ok [] ∧
    processedPairs demoParseFix [demoSheetA] ≠ [] ∧
    (pipeline demoParseFix demoTideNoPreia [demoSheetA] =
      Except.ok ((processedPairs demoParseFix [demoSheetA]).map
        (fun p => (p.1, ([] : List MergedRow))))
    ∧ ∀ p ∈ (processedPairs demoParseFix [demoSheetA]).map
        (fun p => (p.1, ([] : List MergedRow))), p.2.length = 0) :=
  ⟨rfl, by decide,
   claim_C7_empty_events demoParseFix demoTideNoPreia [demoSheetA] rfl (by decide)⟩

/-- C8: the pipeline is a pure, deterministic function of its input
contents. The embedding is a total function — mirroring that
`process_and_merge_data` computes its return value only from its two
arguments, with `st.cache_data` memoizing on exactly those — so two runs on
identical inputs yield identical result mappings (same sheet keys in the
same order, same rows). -/
theorem claim_C8_pure_deterministic
    (parse : String → Option Int) (tide1 tide2 : TideInput)
    (sheets1 sheets2 : List TempSheet)
    (ht : tide1 = tide2) (hsh : sheets1 = sheets2) :
    pipeline parse tide1 sheets1 = pipeline parse tide2 sheets2 := by
  rw [ht, hsh]

/-- Witness for C8: two runs on the demo inputs agree. -/
theorem claim_C8_pure_deterministic_witness :
    demoTide = demoTide ∧ [demoSheetA] = [demoSheetA] ∧
    pipeline demoParseFix demoTide [demoSheetA] =
      pipeline demoParseFix demoTide [demoSheetA] :=
  ⟨rfl, rfl,
   claim_C8_pure_deterministic demoParseFix demoTide demoTide
     [demoSheetA] [demoSheetA] rfl rfl⟩

/-- C9: in every merged sheet of a successful run, the rows appear in
ascending order of the composed event timestamp — the merge preserves the
sorted order of the event table. -/
theorem claim_C9_merged_rows_sorted
    (parse : String → Option Int) (tide : TideInput) (sheets : List TempSheet)
    (res : List (String × List MergedRow))
    (hres : pipeline parse tide sheets = Except.ok res) :
    ∀ p ∈ res, (p.2.map (fun m => m.event.ts)).Pairwise (fun a b => a ≤ b) := by
  rcases (pipeline_ok_iff parse tide sheets res).mp hres with ⟨events, hev, _, hr⟩
  rcases (prepareMares_ok_iff parse tide events).mp hev with ⟨_, hevdef⟩
  have hsorted : events.Pairwise (fun a b => a.ts ≤ b.ts) := by
    rw [hevdef]; exact pairwise_sortOn _
  intro p hp
  rw [hr] at hp
  rcases List.mem_map.mp hp with ⟨q, _, rfl⟩
  show (((mergeAsofNearest toleranceSeconds events q.2 q.1)).map
    (fun m => m.event.ts)).Pairwise (fun a b => a ≤ b)
  rw [mergeAsofNearest, List.map_map]
  exact List.pairwise_map.mpr hsorted

/-- Witness for C9: the demo run's merged sheet is sorted by event
timestamp. -/
theorem claim_C9_merged_rows_sorted_witness :
    pipeline demoParseFix demoTide [demoSheetA] =
      Except.ok [("A", mergeAsofNearest toleranceSeconds demoEvents demoStampedA "A")] ∧
    ∀ p ∈ [("A", mergeAsofNearest toleranceSeconds demoEvents demoStampedA "A")],
      (p.2.map (fun m => m.event.ts)).Pairwise (fun a b => a ≤ b) :=
  ⟨rfl,
   claim_C9_merged_rows_sorted demoParseFix demoTide [demoSheetA]
     [("A", mergeAsofNearest toleranceSeconds demoEvents demoStampedA "A")] rfl⟩

/-- C10: `ficheiro.origem` is dropped before duplicate detection, so two
sensor rows identical in every other column but differing in that column
are exact duplicates and are reduced to one row, counted as one removed
duplicate. -/
theorem claim_C10_origem_dropped_before_dedup
    (name : String) (d t : Bool) (r1 r2 : RawTempRow)
    (hdate : r1.date = r2.date) (htime : r1.time = r2.time)
    (hmeas : r1.meas = r2.meas) :
    cleanedRows { name := name, hasDate := d, hasTime := t, rows := [r1, r2] }
      = [dropOrigem r1]
    ∧ duplicatesRemoved { name := name, hasDate := d, hasTime := t, rows := [r1, r2] } = 1 := by
  have heq : dropOrigem r2 = dropOrigem r1 := by
    simp [dropOrigem, hdate, htime, hmeas]
  constructor
  · simp [cleanedRows, dropDupsFirst, dedupFirstAux, heq]
  · simp [duplicatesRemoved, cleanedRows, dropDupsFirst, dedupFirstAux, heq]

/-- Rows differing only in the `ficheiro.origem` column. -/
def demoOrigemRow1 : RawTempRow :=
  { date := Cell.str "0", time := Cell.str "1", meas := [Cell.num 10],
    origem := some (Cell.str "f1") }

def demoOrigemRow2 : RawTempRow :=
  { date := Cell.str "0", time := Cell.str "1", meas := [Cell.num 10],
    origem := some (Cell.str "f2") }

def demoOrigemSheet : TempSheet :=
  { name := "S", hasDate := true, hasTime := true,
    rows := [demoOrigemRow1, demoOrigemRow2] }

/-- Witness for C10: two rows differing only in `ficheiro.origem` collapse
to one, counted as one removed duplicate. -/
theorem claim_C10_origem_dropped_before_dedup_witness :
    demoOrigemRow1.date = demoOrigemRow2.date ∧
    demoOrigemRow1.time = demoOrigemRow2.time ∧
    demoOrigemRow1.meas = demoOrigemRow2.meas ∧
    (cleanedRows demoOrigemSheet = [dropOrigem demoOrigemRow1]
      ∧ duplicatesRemoved demoOrigemSheet = 1) :=
  ⟨rfl, rfl, rfl,
   claim_C10_origem_dropped_before_dedup "S" true true
     demoOrigemRow1 demoOrigemRow2 rfl rfl rfl⟩
